import Mathlib

/-!
# Verification of the FLamby `fed_heart_disease` dataset loader

Shallow embedding of `flamby/datasets/fed_heart_disease/dataset.py`:
the raw loader `HeartDiseaseRaw.__init__` (file parsing with "?" as
missing, column dropping, NaN-row dropping, per-row Bernoulli train/test
split from a seeded stream, one-hot encoding of columns 2 and 6 with
`drop_first=True`, label binarization, tensor conversion) and the
federated view `FedHeartDisease.__init__` (center validation, boolean-mask
filtering of features/sets/labels/centers in parallel).

Numeric cell values are modelled as rationals; a missing value ("?" in the
raw text, `NaN` after `replace`) is `Option.none`.  Torch tensors are
modelled as a dtype tag together with the list of rational values.  The
numpy random stream obtained after `np.random.seed(8)` is modelled as an
abstract stream `rng : Nat → ℚ`, with `np.random.rand()` reading
successive positions; the seed being fixed, the same stream is used by
every construction.  Fallible construction (pandas `KeyError` on a file
name whose second dot-token is not a known center, `split(".")[1]` out of
range) returns `Option.none`.

The embedding covers well-formed input directories: every discovered file
is non-empty, and all raw rows have a common width `w ≥ 13`, so that
the column labels `10, 11, 12` dropped by `df.drop` and the columns
`2, 6` encoded by `pd.get_dummies` all exist (the real files have
`w = 14`).  Construction returns `none` outside this regime, where the
Python code raises.
-/

set_option linter.unusedVariables false

namespace FedHeart

/-- Torch dtypes that appear in the interface of the loader. -/
inductive Dtype where
  | float32
  | float64
  | int32
  | int64
  deriving DecidableEq, Repr, Inhabited

/-- A torch tensor: a dtype tag plus the (flattened) numeric contents.
`Tensor.to` (dtype cast) only retags, which is all the claims need. -/
structure Tensor where
  dtype : Dtype
  data : List ℚ
  deriving DecidableEq, Repr, Inhabited

/-- One `*.data` file discovered by the glob: its basename and its parsed
rows (`pd.read_csv(..., header=None)` followed by `replace("?", NaN)`:
each cell is `none` iff it was `"?"`). -/
structure RawFile where
  filename : String
  rows : List (List (Option ℚ))
  deriving Repr

/-- `self.centers_number = {"cleveland": 0, "hungarian": 1,
"switzerland": 2, "va": 3}`; lookup of any other key raises `KeyError`,
modelled by `none`. -/
def centersNumber : String → Option ℤ
  | "cleveland" => some 0
  | "hungarian" => some 1
  | "switzerland" => some 2
  | "va" => some 3
  | _ => none

/-- The Python method `str.split(".")`: cut the character list at every dot,
keeping empty pieces (`"a..b"` gives `["a", "", "b"]`, `""` gives
`[""]`). -/
def splitDots (acc : List Char) : List Char → List (List Char)
  | [] => [acc.reverse]
  | c :: rest =>
      if c = '.' then acc.reverse :: splitDots [] rest
      else splitDots (c :: acc) rest

/-- The dot-separated tokens of a filename. -/
def nameTokens (s : String) : List String :=
  (splitDots [] s.toList).map List.asString

/-- `center_name = os.path.basename(center_data_file).split(".")[1]`
followed by the `centers_number` lookup (`IndexError` when there is no
second token, `KeyError` on an unknown name: both `none`). -/
def centerOfFile (f : RawFile) : Option ℤ :=
  ((nameTokens f.filename).get? 1).bind centersNumber

/-- `self.train_fraction = 0.66`, as the normalized rational `33/50`
(written as a literal so that the kernel can evaluate comparisons with
it; `trainFraction_eq` below checks it is `0.66`). -/
def trainFraction : ℚ := ⟨33, 50, by norm_num, by norm_num⟩

/-- `df.drop([10, 11, 12], axis=1)`: with `header=None` the column labels
are positions, so the cells at positions 10, 11, 12 are removed (erased
descending so the earlier indices do not shift). -/
def dropCols (r : List (Option ℚ)) : List (Option ℚ) :=
  ((r.eraseIdx 12).eraseIdx 11).eraseIdx 10

/-- `.dropna(axis=0)` keeps a row iff it has no missing cell. -/
def rowComplete (r : List (Option ℚ)) : Bool :=
  r.all Option.isSome

/-- Rows of one file after `replace("?", NaN).drop([10,11,12],
axis=1).dropna(axis=0)`: complete rows, with the `Option` wrappers gone. -/
def cleanRows (rows : List (List (Option ℚ))) : List (List ℚ) :=
  (((rows.map dropCols).filter rowComplete).map (fun r => r.filterMap id))

/-- The cleaned rows of a file. -/
def fileCleaned (f : RawFile) : List (List ℚ) :=
  cleanRows f.rows

/-- All cleaned rows, files in discovery order, rows in file order
(`pd.concat(..., ignore_index=True)` accumulated over the loop). -/
def mergedRows (files : List RawFile) : List (List ℚ) :=
  (files.map fileCleaned).flatten

/-- `center_X = df.iloc[:, :-1]` for every merged row. -/
def rawFeatureRows (files : List RawFile) : List (List ℚ) :=
  (mergedRows files).map List.dropLast

/-- `center_y = df.iloc[:, -1]` for every merged row (every cleaned row is
non-empty in the well-formed regime, so `getLast?` always hits). -/
def rawLabels (files : List RawFile) : List ℚ :=
  (mergedRows files).filterMap List.getLast?

/-- `self.centers += [self.centers_number[center_name]] * center_X.shape[0]`
accumulated over the files. -/
def centersList (ids : List ℤ) (cleaned : List (List (List ℚ))) : List ℤ :=
  (ids.zip cleaned).flatMap (fun p => List.replicate p.2.length p.1)

/-- The per-file split loop: `for _ in range(nb): if np.random.rand() <
self.train_fraction: self.sets += ["train"] else: self.sets += ["test"]`,
with `start` the number of stream positions consumed by earlier files. -/
def setsForCounts (rng : Nat → ℚ) : Nat → List Nat → List String
  | _, [] => []
  | start, n :: rest =>
      ((List.range n).map
          (fun j => if rng (start + j) < trainFraction then "train" else "test"))
        ++ setsForCounts rng (start + n) rest

/-- Insertion into a `≤`-sorted list of rationals. -/
def insertSorted (x : ℚ) : List ℚ → List ℚ
  | [] => [x]
  | y :: ys => if x ≤ y then x :: y :: ys else y :: insertSorted x ys

/-- The sorted distinct values of a column: `pd.get_dummies` enumerates
the categories of a column in sorted order. -/
def sortedCategories (xs : List ℚ) : List ℚ :=
  xs.dedup.foldr insertSorted []

/-- Dummy categories of column `c` over the merged feature table, with the
first level dropped (`drop_first=True`). -/
def dummyCats (rows : List (List ℚ)) (c : Nat) : List ℚ :=
  (sortedCategories (rows.filterMap (fun r => r.get? c))).drop 1

/-- One row after `pd.get_dummies(..., columns=[2, 6], drop_first=True)`:
the non-encoded cells keep their relative order, then the indicator
cells for the kept categories of column 2, then those of column 6. -/
def encodeRow (cats2 cats6 : List ℚ) (r : List ℚ) : List ℚ :=
  ((r.eraseIdx 6).eraseIdx 2)
    ++ cats2.map (fun v => if r.get? 2 = some v then (1 : ℚ) else 0)
    ++ cats6.map (fun v => if r.get? 6 = some v then (1 : ℚ) else 0)

/-- `pd.get_dummies(self.features, columns=[2, 6], drop_first=True)`:
the categories are computed once over the merged table. -/
def getDummies (rows : List (List ℚ)) : List (List ℚ) :=
  rows.map (encodeRow (dummyCats rows 2) (dummyCats rows 6))

/-- `self.labels.where(self.labels == 0, 1)` applied cellwise:
0 stays 0, anything else becomes 1. -/
def binarize (v : ℚ) : ℚ :=
  if v = 0 then 0 else 1

/-- Width of the first parsed row over all files, if any. -/
def firstWidth (files : List RawFile) : Option Nat :=
  ((files.flatMap RawFile.rows).head?).map List.length

/-- The well-formed input regime (see the file header): every file
non-empty and all rows of width `w ≥ 13`. -/
def wellFormed (files : List RawFile) (w : Nat) : Bool :=
  files.all (fun f => !f.rows.isEmpty)
    && files.all (fun f => f.rows.all (fun r => r.length == w))
    && 13 ≤ w

/-- State built by `HeartDiseaseRaw.__init__`: the encoded per-row feature
tensors, the single (binarized, `X_dtype`-cast) label tensor, and the
aligned center and split lists. -/
structure RawDS where
  X_dtype : Dtype
  y_dtype : Dtype
  features : List Tensor
  labels : Tensor
  centers : List ℤ
  sets : List String
  deriving DecidableEq, Repr, Inhabited

/-- The `centers_number[center_name]` lookup performed once per discovered
file, in discovery order; the first unknown name raises. -/
def centersOfFiles : List RawFile → Option (List ℤ)
  | [] => some []
  | f :: fs =>
    match centerOfFile f, centersOfFiles fs with
    | some c, some cs => some (c :: cs)
    | _, _ => none

/-- The state assembled by the loop body and the post-loop statements of
`HeartDiseaseRaw.__init__`, given the per-file center ids. -/
def rawBuild (rng : Nat → ℚ) (files : List RawFile) (Xd yd : Dtype)
    (ids : List ℤ) : RawDS :=
  { X_dtype := Xd
    y_dtype := yd
    features := (getDummies (rawFeatureRows files)).map (fun r => ⟨Xd, r⟩)
    labels := ⟨Xd, (rawLabels files).map binarize⟩
    centers := centersList ids (files.map fileCleaned)
    sets := setsForCounts rng 0 ((files.map fileCleaned).map List.length) }

/-- `HeartDiseaseRaw.__init__`: `none` where the Python constructor
raises (unknown center token, or input outside the well-formed regime). -/
def heartDiseaseRaw (rng : Nat → ℚ) (files : List RawFile)
    (Xd yd : Dtype) : Option RawDS :=
  match firstWidth files with
  | none => none
  | some w =>
    if wellFormed files w then
      match centersOfFiles files with
      | none => none
      | some ids => some (rawBuild rng files Xd yd ids)
    else none

/-- `len(self.labels)` on the raw dataset: the first dimension of the
label tensor. -/
def RawDS.len (d : RawDS) : Nat :=
  d.labels.data.length

/-- Python sequence indexing: non-negative indices address from the front
and fail from `len` up, negative indices address from the back and fail
below `-len`. -/
def pyIdx (n : Nat) (idx : ℤ) : Option Nat :=
  if 0 ≤ idx then
    if idx < (n : ℤ) then some idx.toNat else none
  else
    if 0 ≤ idx + (n : ℤ) then some (idx + (n : ℤ)).toNat else none

/-- `xs[idx]` with Python semantics. -/
def pyGet (xs : List α) (idx : ℤ) : Option α :=
  (pyIdx xs.length idx).bind (fun i => xs.get? i)

/-- Iterating / indexing the 2-D label tensor yields per-row tensors. -/
def labelRow (t : Tensor) (v : ℚ) : Tensor :=
  ⟨t.dtype, [v]⟩

/-- `HeartDiseaseRaw.__getitem__`: the assertion `idx < len(self.features)`
(an `AssertionError`, `none` here), then `self.features[idx]` and
`self.labels[idx]` (an `IndexError` below `-len`, also `none`). -/
def RawDS.getitem (d : RawDS) (idx : ℤ) : Option (Tensor × Tensor) :=
  if idx < (d.features.length : ℤ) then
    match pyGet d.features idx, pyGet d.labels.data idx with
    | some X, some y => some (X, labelRow d.labels y)
    | _, _ => none
  else none

/-- State built by `FedHeartDisease.__init__`: the filtered lists (the
label tensor has become a Python list of per-row tensors) plus the chosen
selectors. -/
structure FedDS where
  X_dtype : Dtype
  y_dtype : Dtype
  features : List Tensor
  labels : List Tensor
  centers : List ℤ
  sets : List String
  chosen_centers : List ℤ
  chosen_sets : List String
  deriving DecidableEq, Repr, Inhabited

/-- `[fp for idx, fp in enumerate(xs) if to_select[idx]]`. -/
def applyMask (mask : List Bool) (xs : List α) : List α :=
  ((mask.zip xs).filter (fun p => p.1)).map Prod.snd

/-- The mask `to_select`: position `idx` is kept iff `self.sets[idx] in
self.chosen_sets and self.centers[idx] in self.chosen_centers` (the four
lists built by the raw constructor all have the same length). -/
def toSelect (cs : List String) (cc : List ℤ)
    (sets : List String) (centers : List ℤ) : List Bool :=
  List.zipWith (fun s c => decide (s ∈ cs) && decide (c ∈ cc)) sets centers

/-- The selector setup and mask filter of `FedHeartDisease.__init__`:
`self.chosen_centers`/`self.chosen_sets`, `to_select`, and the four
parallel list comprehensions. -/
def fedFilter (d : RawDS) (center : ℤ) (train pooled : Bool) : FedDS :=
  let cc : List ℤ := if pooled then [0, 1, 2, 3] else [center]
  let cs : List String := if train then ["train"] else ["test"]
  let mask := toSelect cs cc d.sets d.centers
  { X_dtype := d.X_dtype
    y_dtype := d.y_dtype
    features := applyMask mask d.features
    labels := applyMask mask (d.labels.data.map (labelRow d.labels))
    centers := applyMask mask d.centers
    sets := applyMask mask d.sets
    chosen_centers := cc
    chosen_sets := cs }

/-- `FedHeartDisease.__init__`: the parent constructor, the
`assert center in [0, 1, 2, 3]`, then `fedFilter`. -/
def fedHeartDisease (rng : Nat → ℚ) (files : List RawFile) (center : ℤ)
    (train pooled : Bool) (Xd yd : Dtype) : Option FedDS :=
  match heartDiseaseRaw rng files Xd yd with
  | none => none
  | some d =>
    if center ∈ ([0, 1, 2, 3] : List ℤ) then
      some (fedFilter d center train pooled)
    else none

/-- `len(self.labels)` on the federated view: now a Python list. -/
def FedDS.len (d : FedDS) : Nat :=
  d.labels.length

/-- `__getitem__` inherited by `FedHeartDisease`: same code, but
`self.labels` is a list of tensors. -/
def FedDS.getitem (d : FedDS) (idx : ℤ) : Option (Tensor × Tensor) :=
  if idx < (d.features.length : ℤ) then
    match pyGet d.features idx, pyGet d.labels idx with
    | some X, some y => some (X, y)
    | _, _ => none
  else none



/-- The observable output of the raw dataset (everything `__len__` and
`__getitem__` can reach): its features, labels, centers and sets, without
the stored dtype arguments. -/
def stripY (d : RawDS) : List Tensor × Tensor × List ℤ × List String :=
  (d.features, d.labels, d.centers, d.sets)

/-- A concrete pseudorandom stream used to instantiate the theorems on
concrete data: 0 at even positions (a "train" draw), 1 at odd ones (a
"test" draw). -/
def wRng : Nat → ℚ := fun k => if k % 2 = 0 then 0 else 1

/-- A concrete fully-populated 14-column row with label `lab`, shaped like
a line of `processed.cleveland.data`. -/
def wRow (lab : ℚ) : List (Option ℚ) :=
  [some 63, some 1, some 1, some 145, some 233, some 1, some 2,
   some 150, some 0, some 2, some 3, some 0, some 6, some lab]

/-- A concrete two-file input directory. -/
def wFiles : List RawFile :=
  [⟨"processed.cleveland.data", [wRow 0, wRow 3]⟩,
   ⟨"processed.hungarian.data", [wRow 2, wRow 0]⟩]

/-- The raw dataset built over `wFiles`. -/
def rawW : RawDS :=
  (heartDiseaseRaw wRng wFiles Dtype.float32 Dtype.float32).getD default

/-- The federated view over `wFiles` for center 0, train split. -/
def fedW : FedDS :=
  (fedHeartDisease wRng wFiles 0 true false Dtype.float32
      Dtype.float32).getD default

/-- The pooled federated view over `wFiles`, train split. -/
def fedWP : FedDS :=
  (fedHeartDisease wRng wFiles 0 true true Dtype.float32
      Dtype.float32).getD default

/-! ## Helper lemmas -/

theorem filterMap_id_length_of_complete (r : List (Option ℚ))
    (h : rowComplete r = true) : (r.filterMap id).length = r.length := by
  induction r with
  | nil => rfl
  | cons a r ih =>
    simp only [rowComplete, List.all_cons, Bool.and_eq_true] at h
    cases a with
    | none => simp [Option.isSome] at h
    | some v =>
      simp only [List.filterMap_cons, id, List.length_cons]
      rw [ih h.2]

theorem dropCols_length (r : List (Option ℚ)) (w : Nat) (hw : r.length = w)
    (h13 : 13 ≤ w) : (dropCols r).length = w - 3 := by
  simp only [dropCols, List.length_eraseIdx]
  rw [hw]
  have h12 : 12 < w := by omega
  rw [if_pos h12]
  rw [if_pos (by omega : 11 < w - 1)]
  rw [if_pos (by omega : 10 < w - 1 - 1)]
  omega

theorem mem_cleanRows_length (rows : List (List (Option ℚ))) (w : Nat)
    (hall : rows.all (fun r => r.length == w) = true) (h13 : 13 ≤ w) :
    ∀ r ∈ cleanRows rows, r.length = w - 3 := by
  intro r hr
  simp only [cleanRows, List.mem_map] at hr
  obtain ⟨r1, hr1, rfl⟩ := hr
  rw [List.mem_filter] at hr1
  obtain ⟨hr1m, hr1c⟩ := hr1
  rw [List.mem_map] at hr1m
  obtain ⟨r0, hr0, rfl⟩ := hr1m
  rw [List.all_eq_true] at hall
  have hw0 : r0.length = w := by
    have := hall r0 hr0
    exact beq_iff_eq.mp this
  rw [filterMap_id_length_of_complete _ hr1c]
  exact dropCols_length r0 w hw0 h13

theorem mem_mergedRows_length (files : List RawFile) (w : Nat)
    (hwf : wellFormed files w = true) :
    ∀ r ∈ mergedRows files, r.length = w - 3 := by
  intro r hr
  simp only [wellFormed, Bool.and_eq_true, decide_eq_true_eq] at hwf
  obtain ⟨⟨hne, hall⟩, h13⟩ := hwf
  simp only [mergedRows, List.mem_flatten, List.mem_map] at hr
  obtain ⟨l, ⟨f, hf, rfl⟩, hrl⟩ := hr
  rw [List.all_eq_true] at hall
  exact mem_cleanRows_length f.rows w (hall f hf) h13 r hrl

theorem mem_mergedRows_ne_nil (files : List RawFile) (w : Nat)
    (hwf : wellFormed files w = true) :
    ∀ r ∈ mergedRows files, r ≠ [] := by
  intro r hr hnil
  have hlen := mem_mergedRows_length files w hwf r hr
  have h13 : 13 ≤ w := by
    simp only [wellFormed, Bool.and_eq_true, decide_eq_true_eq] at hwf
    exact hwf.2
  rw [hnil] at hlen
  simp at hlen
  omega

theorem filterMap_getLast?_length (l : List (List ℚ))
    (h : ∀ r ∈ l, r ≠ []) : (l.filterMap List.getLast?).length = l.length := by
  induction l with
  | nil => rfl
  | cons r l ih =>
    have hr : r ≠ [] := h r (List.mem_cons_self r l)
    obtain ⟨v, hv⟩ := List.getLast?_isSome.mpr hr |> Option.isSome_iff_exists.mp
    simp only [List.filterMap_cons, hv, List.length_cons]
    rw [ih (fun s hs => h s (List.mem_cons_of_mem r hs))]

theorem rawLabels_length (files : List RawFile) (w : Nat)
    (hwf : wellFormed files w = true) :
    (rawLabels files).length = (mergedRows files).length :=
  filterMap_getLast?_length _ (mem_mergedRows_ne_nil files w hwf)

theorem centersOfFiles_length (files : List RawFile) (ids : List ℤ)
    (h : centersOfFiles files = some ids) : ids.length = files.length := by
  induction files generalizing ids with
  | nil =>
    simp only [centersOfFiles] at h
    cases h
    rfl
  | cons f fs ih =>
    simp only [centersOfFiles] at h
    cases hc : centerOfFile f with
    | none => rw [hc] at h; exact absurd h (by simp)
    | some c =>
      cases hcs : centersOfFiles fs with
      | none => rw [hc, hcs] at h; exact absurd h (by simp)
      | some cs =>
        rw [hc, hcs] at h
        cases h
        simp [List.length_cons, ih cs hcs]

theorem centersList_length (ids : List ℤ) (cls : List (List (List ℚ)))
    (h : ids.length = cls.length) :
    (centersList ids cls).length = (cls.map List.length).sum := by
  induction ids generalizing cls with
  | nil =>
    cases cls with
    | nil => rfl
    | cons c cls => simp at h
  | cons i ids ih =>
    cases cls with
    | nil => simp at h
    | cons c cls =>
      simp only [centersList, List.zip_cons_cons, List.flatMap_cons,
        List.length_append, List.length_replicate, List.map_cons, List.sum_cons]
      have := ih cls (by simpa using h)
      simp only [centersList] at this
      rw [this]

theorem setsForCounts_length (rng : Nat → ℚ) (counts : List Nat)
    (start : Nat) : (setsForCounts rng start counts).length = counts.sum := by
  induction counts generalizing start with
  | nil => rfl
  | cons n rest ih =>
    simp only [setsForCounts, List.length_append, List.length_map,
      List.length_range, List.sum_cons]
    rw [ih]

theorem setsForCounts_eq (rng : Nat → ℚ) (counts : List Nat) (start : Nat) :
    setsForCounts rng start counts =
      (List.range counts.sum).map
        (fun j => if rng (start + j) < trainFraction then "train" else "test") := by
  induction counts generalizing start with
  | nil => rfl
  | cons n rest ih =>
    simp only [setsForCounts, List.sum_cons, List.range_add, List.map_append,
      List.map_map, ih (start + n)]
    congr 2
    funext j
    simp only [Function.comp_apply]
    rw [Nat.add_assoc]

@[simp]
theorem applyMask_nil_mask (xs : List α) : applyMask [] xs = [] := rfl

@[simp]
theorem applyMask_nil_list (m : List Bool) : applyMask m ([] : List α) = [] := by
  cases m <;> rfl

@[simp]
theorem applyMask_cons (b : Bool) (m : List Bool) (x : α) (xs : List α) :
    applyMask (b :: m) (x :: xs) =
      if b then x :: applyMask m xs else applyMask m xs := by
  simp only [applyMask, List.zip_cons_cons, List.filter_cons]
  cases b <;> simp

theorem applyMask_sublist (m : List Bool) (xs : List α) :
    (applyMask m xs).Sublist xs := by
  induction m generalizing xs with
  | nil => simp
  | cons b m ih =>
    cases xs with
    | nil => simp
    | cons x xs =>
      rw [applyMask_cons]
      cases b with
      | false => exact (ih xs).cons x
      | true => exact (ih xs).cons₂ x

theorem applyMask_length_eq (m : List Bool) (xs : List α) (ys : List β)
    (h : xs.length = ys.length) :
    (applyMask m xs).length = (applyMask m ys).length := by
  induction m generalizing xs ys with
  | nil => simp
  | cons b m ih =>
    cases xs with
    | nil => cases ys with
      | nil => simp
      | cons y ys => simp at h
    | cons x xs =>
      cases ys with
      | nil => simp at h
      | cons y ys =>
        simp only [List.length_cons, Nat.succ_inj] at h
        rw [applyMask_cons, applyMask_cons]
        cases b <;> simp [ih xs ys h]

theorem applyMask_zip (m : List Bool) (xs : List α) (ys : List β)
    (h : xs.length = ys.length) :
    applyMask m (xs.zip ys) = (applyMask m xs).zip (applyMask m ys) := by
  induction m generalizing xs ys with
  | nil => simp
  | cons b m ih =>
    cases xs with
    | nil => simp
    | cons x xs =>
      cases ys with
      | nil => simp at h
      | cons y ys =>
        simp only [List.length_cons, Nat.succ_inj] at h
        rw [List.zip_cons_cons, applyMask_cons, applyMask_cons, applyMask_cons]
        cases b with
        | false => simp [ih xs ys h]
        | true => simp [ih xs ys h, List.zip_cons_cons]

theorem mem_applyMask_zipWith_left (p : α → β → Bool) (xs : List α)
    (ys : List β) (x : α) (hx : x ∈ applyMask (List.zipWith p xs ys) xs) :
    ∃ y, p x y = true := by
  induction xs generalizing ys with
  | nil => simp at hx
  | cons a as ih =>
    cases ys with
    | nil => simp [List.zipWith] at hx
    | cons b bs =>
      rw [List.zipWith_cons_cons, applyMask_cons] at hx
      by_cases hp : p a b = true
      · rw [if_pos hp, List.mem_cons] at hx
        cases hx with
        | inl h => exact ⟨b, h ▸ hp⟩
        | inr h => exact ih bs h
      · rw [if_neg hp] at hx
        exact ih bs hx

theorem mem_applyMask_zipWith_right (p : α → β → Bool) (xs : List α)
    (ys : List β) (y : β) (hy : y ∈ applyMask (List.zipWith p xs ys) ys) :
    ∃ x, p x y = true := by
  induction xs generalizing ys with
  | nil => simp [List.zipWith] at hy
  | cons a as ih =>
    cases ys with
    | nil => simp at hy
    | cons b bs =>
      rw [List.zipWith_cons_cons, applyMask_cons] at hy
      by_cases hp : p a b = true
      · rw [if_pos hp, List.mem_cons] at hy
        cases hy with
        | inl h => exact ⟨a, h ▸ hp⟩
        | inr h => exact ih bs h
      · rw [if_neg hp] at hy
        exact ih bs hy

theorem applyMask_mono (p q : α → β → Bool) (xs : List α) (ys : List β)
    (zs : List γ) (hpq : ∀ a b, p a b = true → q a b = true) :
    (applyMask (List.zipWith p xs ys) zs).Sublist
      (applyMask (List.zipWith q xs ys) zs) := by
  induction xs generalizing ys zs with
  | nil => simp [List.zipWith]
  | cons a as ih =>
    cases ys with
    | nil => simp [List.zipWith]
    | cons b bs =>
      cases zs with
      | nil => simp
      | cons z zs =>
        simp only [List.zipWith_cons_cons, applyMask_cons]
        by_cases hp : p a b = true
        · rw [if_pos hp, if_pos (hpq a b hp)]
          exact (ih bs zs).cons₂ z
        · rw [if_neg hp]
          by_cases hq : q a b = true
          · rw [if_pos hq]
            exact (ih bs zs).cons z
          · rw [if_neg hq]
            exact ih bs zs

theorem pyIdx_ofNat (n i : Nat) : pyIdx n (i : ℤ) =
    if i < n then some i else none := by
  simp only [pyIdx, Int.ofNat_toNat]
  rw [if_pos (by positivity : (0 : ℤ) ≤ (i : ℤ))]
  by_cases h : i < n
  · rw [if_pos (by exact_mod_cast h), if_pos h]
    simp
  · rw [if_neg (by exact_mod_cast h), if_neg h]

theorem pyGet_ofNat (xs : List α) (i : Nat) : pyGet xs (i : ℤ) = xs.get? i := by
  simp only [pyGet, pyIdx_ofNat]
  by_cases h : i < xs.length
  · rw [if_pos h]
    simp
  · rw [if_neg h]
    rw [List.get?_eq_getElem?, List.getElem?_eq_none (by omega)]
    rfl

theorem pyGet_neg (xs : List α) (idx : ℤ) (hlo : -(xs.length : ℤ) ≤ idx)
    (hhi : idx < 0) : pyGet xs idx = xs.get? (idx + xs.length).toNat := by
  simp only [pyGet, pyIdx]
  rw [if_neg (by omega : ¬(0 : ℤ) ≤ idx), if_pos (by omega : (0 : ℤ) ≤ idx + xs.length)]
  simp

/-! ## Inversion of the constructors -/

theorem heartDiseaseRaw_inv {rng : Nat → ℚ} {files : List RawFile}
    {Xd yd : Dtype} {d : RawDS}
    (h : heartDiseaseRaw rng files Xd yd = some d) :
    ∃ w ids, firstWidth files = some w ∧ wellFormed files w = true ∧
      centersOfFiles files = some ids ∧ d = rawBuild rng files Xd yd ids := by
  unfold heartDiseaseRaw at h
  split at h
  next => exact absurd h (by simp)
  next w hw =>
    split at h
    next hwf =>
      split at h
      next => exact absurd h (by simp)
      next ids hids =>
        exact ⟨w, ids, hw, hwf, hids, (Option.some_inj.mp h).symm⟩
    next hwf => exact absurd h (by simp)

theorem fedHeartDisease_inv {rng : Nat → ℚ} {files : List RawFile}
    {center : ℤ} {train pooled : Bool} {Xd yd : Dtype} {e : FedDS}
    (h : fedHeartDisease rng files center train pooled Xd yd = some e) :
    ∃ d, heartDiseaseRaw rng files Xd yd = some d ∧
      center ∈ ([0, 1, 2, 3] : List ℤ) ∧ e = fedFilter d center train pooled := by
  unfold fedHeartDisease at h
  split at h
  next => exact absurd h (by simp)
  next d hd =>
    split at h
    next hc => exact ⟨d, hd, hc, (Option.some_inj.mp h).symm⟩
    next hc => exact absurd h (by simp)

theorem trainFraction_eq : trainFraction = 66 / 100 := by
  rw [trainFraction, Rat.mk'_eq_divInt, Rat.divInt_eq_div]
  norm_num

theorem raw_component_lengths {rng : Nat → ℚ} {files : List RawFile}
    {Xd yd : Dtype} {d : RawDS} (h : heartDiseaseRaw rng files Xd yd = some d) :
    d.features.length = (mergedRows files).length ∧
    d.labels.data.length = (mergedRows files).length ∧
    d.centers.length = (mergedRows files).length ∧
    d.sets.length = (mergedRows files).length := by
  obtain ⟨w, ids, hw, hwf, hids, rfl⟩ := heartDiseaseRaw_inv h
  refine ⟨?_, ?_, ?_, ?_⟩
  · simp [rawBuild, getDummies, rawFeatureRows]
  · simp only [rawBuild]
    rw [List.length_map]
    exact rawLabels_length files w hwf
  · have hlen : ids.length = (files.map fileCleaned).length := by
      rw [centersOfFiles_length files ids hids, List.length_map]
    simp only [rawBuild]
    rw [centersList_length ids _ hlen, ← List.length_flatten]
    rfl
  · simp only [rawBuild]
    rw [setsForCounts_length, ← List.length_flatten]
    rfl

theorem fed_component_lengths {rng : Nat → ℚ} {files : List RawFile}
    {center : ℤ} {train pooled : Bool} {Xd yd : Dtype} {e : FedDS}
    (h : fedHeartDisease rng files center train pooled Xd yd = some e) :
    e.features.length = e.labels.length ∧
    e.features.length = e.centers.length ∧
    e.features.length = e.sets.length := by
  obtain ⟨d, hd, hc, rfl⟩ := fedHeartDisease_inv h
  obtain ⟨hf, hl, hcn, hs⟩ := raw_component_lengths hd
  simp only [fedFilter]
  refine ⟨?_, ?_, ?_⟩
  · exact applyMask_length_eq _ _ _ (by rw [List.length_map, hf, hl])
  · exact applyMask_length_eq _ _ _ (by rw [hf, hcn])
  · exact applyMask_length_eq _ _ _ (by rw [hf, hs])

/-- C2: after construction of `HeartDiseaseRaw`, the stored label vector is
the raw label column mapped through `0 ↦ 0`, nonzero `↦ 1`, so every
stored label value is in `{0, 1}`. -/
theorem claim_C2_labels_binarized (rng : Nat → ℚ) (files : List RawFile)
    (Xd yd : Dtype) (d : RawDS)
    (h : heartDiseaseRaw rng files Xd yd = some d) :
    d.labels.data =
      (rawLabels files).map (fun v => if v = 0 then (0 : ℚ) else 1) ∧
    ∀ v ∈ d.labels.data, v = 0 ∨ v = 1 := by
  obtain ⟨w, ids, hw, hwf, hids, rfl⟩ := heartDiseaseRaw_inv h
  constructor
  · rfl
  · intro v hv
    simp only [rawBuild] at hv
    rw [List.mem_map] at hv
    obtain ⟨u, hu, rfl⟩ := hv
    by_cases h0 : u = 0
    · left
      simp [binarize, h0]
    · right
      simp [binarize, h0]

/-- C2 witness: the theorem applied to the concrete two-file directory
`wFiles` (raw labels `[0, 3, 2, 0]`). -/
theorem claim_C2_witness :
    rawW.labels.data =
      (rawLabels wFiles).map (fun v => if v = 0 then (0 : ℚ) else 1) ∧
    ∀ v ∈ rawW.labels.data, v = 0 ∨ v = 1 :=
  claim_C2_labels_binarized wRng wFiles Dtype.float32 Dtype.float32 rawW rfl

/-- C7: `len(HeartDiseaseRaw)` equals the total number of rows retained
across the discovered files after treating `"?"` as missing, dropping
columns 10, 11, 12 and dropping every row with a missing value (that is
what `cleanRows` does). -/
theorem claim_C7_len_is_retained_rows (rng : Nat → ℚ) (files : List RawFile)
    (Xd yd : Dtype) (d : RawDS)
    (h : heartDiseaseRaw rng files Xd yd = some d) :
    d.len = ((files.map (fun f => (cleanRows f.rows).length)).sum) := by
  have hl := (raw_component_lengths h).2.1
  rw [RawDS.len, hl, mergedRows, List.length_flatten, List.map_map]
  rfl

/-- C7 witness: over `wFiles`, each file keeps its two complete rows. -/
theorem claim_C7_witness :
    rawW.len = ((wFiles.map (fun f => (cleanRows f.rows).length)).sum) :=
  claim_C7_len_is_retained_rows wRng wFiles Dtype.float32 Dtype.float32 rawW
    rfl

/-- C3: the split assignment is an independent Bernoulli draw per retained
row from the stream, consumed in file-iteration order — row `k` (in global
order) reads stream position `k` and is `"train"` iff the draw is below
`trainFraction` — and any two constructions over the identical file list
(with any dtype arguments) produce identical split assignments. -/
theorem claim_C3_split_bernoulli_deterministic (rng : Nat → ℚ)
    (files : List RawFile) (Xd yd Xd' yd' : Dtype) (d d' : RawDS)
    (h : heartDiseaseRaw rng files Xd yd = some d)
    (h' : heartDiseaseRaw rng files Xd' yd' = some d') :
    (∀ k, k < d.sets.length →
        d.sets.get? k =
          some (if rng k < trainFraction then "train" else "test")) ∧
    d'.sets = d.sets := by
  obtain ⟨w, ids, hw, hwf, hids, rfl⟩ := heartDiseaseRaw_inv h
  obtain ⟨w', ids', hw', hwf', hids', rfl⟩ := heartDiseaseRaw_inv h'
  constructor
  · intro k hk
    simp only [rawBuild] at hk ⊢
    rw [setsForCounts_eq] at hk ⊢
    rw [List.length_map, List.length_range] at hk
    rw [List.get?_eq_getElem?, List.getElem?_map, List.getElem?_range hk]
    simp
  · rfl

/-- C3 witness: the theorem applied to `wFiles`, with the second
construction using different dtypes. -/
theorem claim_C3_witness :
    (∀ k, k < rawW.sets.length →
        rawW.sets.get? k =
          some (if wRng k < trainFraction then "train" else "test")) ∧
    ((heartDiseaseRaw wRng wFiles Dtype.float64 Dtype.int64).get
        (by decide)).sets = rawW.sets :=
  claim_C3_split_bernoulli_deterministic wRng wFiles Dtype.float32
    Dtype.float32 Dtype.float64 Dtype.int64 rawW
    ((heartDiseaseRaw wRng wFiles Dtype.float64 Dtype.int64).get
        (by decide)) rfl
    (Option.some_get (by decide)).symm

/-- C9: the label tensor is cast to `X_dtype`, not `y_dtype` (as are the
feature tensors); `y_dtype` is stored in the object but every observable
output (`stripY`: features, labels, centers, sets) is unchanged when the
`y_dtype` argument changes. -/
theorem claim_C9_ydtype_unused (rng : Nat → ℚ) (files : List RawFile)
    (Xd yd yd' : Dtype) (d : RawDS)
    (h : heartDiseaseRaw rng files Xd yd = some d) :
    d.labels.dtype = Xd ∧ (∀ t ∈ d.features, t.dtype = Xd) ∧
    d.y_dtype = yd ∧
    (heartDiseaseRaw rng files Xd yd').map stripY =
      (heartDiseaseRaw rng files Xd yd).map stripY := by
  obtain ⟨w, ids, hw, hwf, hids, rfl⟩ := heartDiseaseRaw_inv h
  refine ⟨rfl, ?_, rfl, ?_⟩
  · intro t ht
    simp only [rawBuild] at ht
    rw [List.mem_map] at ht
    obtain ⟨r, hr, rfl⟩ := ht
    rfl
  · simp only [heartDiseaseRaw, hw, hwf, if_true, hids, Option.map_some']
    rfl

/-- C9 witness: over `wFiles`, with `y_dtype` `float32` stored and
`int64` as the changed argument. -/
theorem claim_C9_witness :
    rawW.labels.dtype = Dtype.float32 ∧
    (∀ t ∈ rawW.features, t.dtype = Dtype.float32) ∧
    rawW.y_dtype = Dtype.float32 ∧
    (heartDiseaseRaw wRng wFiles Dtype.float32 Dtype.int64).map stripY =
      (heartDiseaseRaw wRng wFiles Dtype.float32 Dtype.float32).map stripY :=
  claim_C9_ydtype_unused wRng wFiles Dtype.float32 Dtype.float32 Dtype.int64
    rawW rfl

/-- C1: every row retained by the federated view has split assignment
`"train"` when `train=True` and `"test"` when `train=False`; with
`pooled=False` its original center is the requested one, and with
`pooled=True` its center is one of `{0, 1, 2, 3}`. -/
theorem claim_C1_filter_membership (rng : Nat → ℚ) (files : List RawFile)
    (center : ℤ) (train pooled : Bool) (Xd yd : Dtype) (e : FedDS)
    (h : fedHeartDisease rng files center train pooled Xd yd = some e) :
    (∀ s ∈ e.sets, s = if train then "train" else "test") ∧
    (∀ c ∈ e.centers,
        (pooled = false → c = center) ∧
        (pooled = true → c ∈ ([0, 1, 2, 3] : List ℤ))) := by
  obtain ⟨d, hd, hc, rfl⟩ := fedHeartDisease_inv h
  constructor
  · intro s hs
    simp only [fedFilter, toSelect] at hs
    obtain ⟨c, hpc⟩ := mem_applyMask_zipWith_left _ d.sets d.centers s hs
    rw [Bool.and_eq_true, decide_eq_true_eq, decide_eq_true_eq] at hpc
    have hs' := hpc.1
    cases train
    · simpa using hs'
    · simpa using hs'
  · intro c hcm
    simp only [fedFilter, toSelect] at hcm
    obtain ⟨s, hpc⟩ := mem_applyMask_zipWith_right _ d.sets d.centers c hcm
    rw [Bool.and_eq_true, decide_eq_true_eq, decide_eq_true_eq] at hpc
    have hc' := hpc.2
    constructor
    · intro hp
      rw [hp] at hc'
      simpa using hc'
    · intro hp
      rw [hp] at hc'
      simpa using hc'

/-- C1 witness: the single-center train view over `wFiles` (center 0,
`train=True`, `pooled=False`). -/
theorem claim_C1_witness :
    (∀ s ∈ fedW.sets, s = if true then "train" else "test") ∧
    (∀ c ∈ fedW.centers,
        (false = false → c = 0) ∧
        (false = true → c ∈ ([0, 1, 2, 3] : List ℤ))) :=
  claim_C1_filter_membership wRng wFiles 0 true false Dtype.float32
    Dtype.float32 fedW rfl

/-- C6: a center argument outside `{0, 1, 2, 3}` makes the construction of
`FedHeartDisease` fail whatever `pooled` and `train` are, while a center in
`{0, 1, 2, 3}` passes the center check: whenever the parent constructor
succeeds, so does the construction of the view. -/
theorem claim_C6_center_validation (rng : Nat → ℚ) (files : List RawFile)
    (center : ℤ) (train pooled : Bool) (Xd yd : Dtype) :
    (center ∉ ([0, 1, 2, 3] : List ℤ) →
        fedHeartDisease rng files center train pooled Xd yd = none) ∧
    (center ∈ ([0, 1, 2, 3] : List ℤ) →
        ∀ d, heartDiseaseRaw rng files Xd yd = some d →
          ∃ e, fedHeartDisease rng files center train pooled Xd yd = some e) := by
  constructor
  · intro hc
    cases h : heartDiseaseRaw rng files Xd yd with
    | none => simp [fedHeartDisease, h]
    | some d => simp [fedHeartDisease, h, hc]
  · intro hc d hd
    exact ⟨fedFilter d center train pooled, by simp [fedHeartDisease, hd, hc]⟩

/-- C6 witness: center 5 is rejected for every flag combination tried;
center 0 is accepted over `wFiles`. -/
theorem claim_C6_witness :
    fedHeartDisease wRng wFiles 5 false true Dtype.float32 Dtype.float32 =
      none ∧
    ∃ e, fedHeartDisease wRng wFiles 0 true false Dtype.float32
        Dtype.float32 = some e :=
  ⟨(claim_C6_center_validation wRng wFiles 5 false true Dtype.float32
        Dtype.float32).1 (by decide),
   (claim_C6_center_validation wRng wFiles 0 true false Dtype.float32
        Dtype.float32).2 (by decide) rawW rfl⟩

/-- C4: for a valid center and the same split selector, the pooled view
retains a supersequence of the rows retained by the single-center view:
features and labels of the single-center view are sublists of the pooled
ones, and its length is no larger. -/
theorem claim_C4_pooled_superset (rng : Nat → ℚ) (files : List RawFile)
    (center : ℤ) (train : Bool) (Xd yd : Dtype) (eS eP : FedDS)
    (hS : fedHeartDisease rng files center train false Xd yd = some eS)
    (hP : fedHeartDisease rng files center train true Xd yd = some eP) :
    eS.features.Sublist eP.features ∧ eS.labels.Sublist eP.labels ∧
    eS.len ≤ eP.len := by
  obtain ⟨d, hd, hc, rfl⟩ := fedHeartDisease_inv hS
  obtain ⟨d2, hd2, hc2, rfl⟩ := fedHeartDisease_inv hP
  have hdd : d = d2 := by
    rw [hd] at hd2
    exact Option.some_inj.mp hd2
  subst hdd
  have hmono : ∀ (s : String) (c : ℤ),
      (decide (s ∈ (if train then ["train"] else ["test"])) &&
        decide (c ∈ ([center] : List ℤ))) = true →
      (decide (s ∈ (if train then ["train"] else ["test"])) &&
        decide (c ∈ ([0, 1, 2, 3] : List ℤ))) = true := by
    intro s c hsc
    rw [Bool.and_eq_true] at hsc ⊢
    refine ⟨hsc.1, ?_⟩
    have h2 := hsc.2
    rw [decide_eq_true_eq] at h2 ⊢
    have hce : c = center := by simpa using h2
    rw [hce]
    exact hc
  have hlab := applyMask_mono _ _ d.sets d.centers
    (d.labels.data.map (labelRow d.labels)) hmono
  refine ⟨?_, ?_, ?_⟩
  · simpa [fedFilter, toSelect] using
      applyMask_mono _ _ d.sets d.centers d.features hmono
  · simpa [fedFilter, toSelect] using hlab
  · simpa [fedFilter, toSelect, FedDS.len] using hlab.length_le

/-- C4 witness: over `wFiles`, the pooled train view (2 rows) extends the
center-0 train view (1 row). -/
theorem claim_C4_witness :
    fedW.features.Sublist fedWP.features ∧ fedW.labels.Sublist fedWP.labels ∧
    fedW.len ≤ fedWP.len :=
  claim_C4_pooled_superset wRng wFiles 0 true Dtype.float32 Dtype.float32
    fedW fedWP rfl rfl

/-- C8: the federated view is obtained by applying the single boolean mask
`to_select` in parallel to the features, labels, centers and sets of the
base dataset, so the four filtered lists stay aligned row by row and the
retained rows appear in their original relative order (the zipped filtered
quadruple is a sublist of the zipped base quadruple). -/
theorem claim_C8_mask_alignment (rng : Nat → ℚ) (files : List RawFile)
    (center : ℤ) (train pooled : Bool) (Xd yd : Dtype) (d : RawDS)
    (e : FedDS) (hd : heartDiseaseRaw rng files Xd yd = some d)
    (he : fedHeartDisease rng files center train pooled Xd yd = some e) :
    (e.features =
        applyMask (toSelect e.chosen_sets e.chosen_centers d.sets d.centers)
          d.features ∧
      e.labels =
        applyMask (toSelect e.chosen_sets e.chosen_centers d.sets d.centers)
          (d.labels.data.map (labelRow d.labels)) ∧
      e.centers =
        applyMask (toSelect e.chosen_sets e.chosen_centers d.sets d.centers)
          d.centers ∧
      e.sets =
        applyMask (toSelect e.chosen_sets e.chosen_centers d.sets d.centers)
          d.sets) ∧
    (e.features.zip (e.labels.zip (e.centers.zip e.sets))).Sublist
      (d.features.zip ((d.labels.data.map (labelRow d.labels)).zip
        (d.centers.zip d.sets))) := by
  obtain ⟨d2, hd2, hc, rfl⟩ := fedHeartDisease_inv he
  have hdd : d = d2 := by
    rw [hd] at hd2
    exact Option.some_inj.mp hd2
  subst hdd
  obtain ⟨hf, hl, hcn, hs⟩ := raw_component_lengths hd
  refine ⟨⟨rfl, rfl, rfl, rfl⟩, ?_⟩
  have hz1 : d.centers.length = d.sets.length := by omega
  have hz2 : (d.labels.data.map (labelRow d.labels)).length =
      (d.centers.zip d.sets).length := by
    simp only [List.length_map, List.length_zip]
    omega
  have hz3 : d.features.length =
      ((d.labels.data.map (labelRow d.labels)).zip
        (d.centers.zip d.sets)).length := by
    simp only [List.length_map, List.length_zip]
    omega
  have hkey :
      ((fedFilter d center train pooled).features.zip
        ((fedFilter d center train pooled).labels.zip
          ((fedFilter d center train pooled).centers.zip
            (fedFilter d center train pooled).sets))) =
      applyMask
        (toSelect (fedFilter d center train pooled).chosen_sets
          (fedFilter d center train pooled).chosen_centers d.sets d.centers)
        (d.features.zip ((d.labels.data.map (labelRow d.labels)).zip
          (d.centers.zip d.sets))) := by
    rw [applyMask_zip _ _ _ hz3, applyMask_zip _ _ _ hz2,
      applyMask_zip _ _ _ hz1]
    rfl
  rw [hkey]
  exact applyMask_sublist _ _

/-- C8 witness: the theorem instantiated on `wFiles` with the center-0
train view. -/
theorem claim_C8_witness :
    (fedW.features =
        applyMask (toSelect fedW.chosen_sets fedW.chosen_centers rawW.sets
          rawW.centers) rawW.features ∧
      fedW.labels =
        applyMask (toSelect fedW.chosen_sets fedW.chosen_centers rawW.sets
          rawW.centers) (rawW.labels.data.map (labelRow rawW.labels)) ∧
      fedW.centers =
        applyMask (toSelect fedW.chosen_sets fedW.chosen_centers rawW.sets
          rawW.centers) rawW.centers ∧
      fedW.sets =
        applyMask (toSelect fedW.chosen_sets fedW.chosen_centers rawW.sets
          rawW.centers) rawW.sets) ∧
    (fedW.features.zip (fedW.labels.zip (fedW.centers.zip fedW.sets))).Sublist
      (rawW.features.zip ((rawW.labels.data.map (labelRow rawW.labels)).zip
        (rawW.centers.zip rawW.sets))) :=
  claim_C8_mask_alignment wRng wFiles 0 true false Dtype.float32
    Dtype.float32 rawW fedW rfl rfl

/-- C5: for both datasets, `len` is the number of stored labels; indexed
access at `0 ≤ idx < len` returns the `(feature_vector, label)` pair at
that position, and any `idx ≥ len` fails (no sentinel value). -/
theorem claim_C5_len_and_getitem (rng : Nat → ℚ) (files : List RawFile)
    (center : ℤ) (train pooled : Bool) (Xd yd : Dtype) (d : RawDS)
    (e : FedDS) (hd : heartDiseaseRaw rng files Xd yd = some d)
    (he : fedHeartDisease rng files center train pooled Xd yd = some e) :
    (d.len = d.labels.data.length ∧ e.len = e.labels.length) ∧
    (∀ idx : ℤ, (d.len : ℤ) ≤ idx → d.getitem idx = none) ∧
    (∀ i : Nat, i < d.len → ∃ X y, d.features.get? i = some X ∧
        d.labels.data.get? i = some y ∧
        d.getitem (i : ℤ) = some (X, labelRow d.labels y)) ∧
    (∀ idx : ℤ, (e.len : ℤ) ≤ idx → e.getitem idx = none) ∧
    (∀ i : Nat, i < e.len → ∃ X y, e.features.get? i = some X ∧
        e.labels.get? i = some y ∧ e.getitem (i : ℤ) = some (X, y)) := by
  have hNd : d.features.length = d.len := by
    have h := raw_component_lengths hd
    rw [RawDS.len]
    omega
  have hNe : e.features.length = e.len := by
    rw [FedDS.len]
    exact (fed_component_lengths he).1
  refine ⟨⟨rfl, rfl⟩, ?_, ?_, ?_, ?_⟩
  · intro idx hidx
    rw [RawDS.getitem, if_neg]
    rw [hNd]
    omega
  · intro i hi
    have hif : i < d.features.length := by omega
    have hil : i < d.labels.data.length := by rw [RawDS.len] at hNd; omega
    refine ⟨d.features.get ⟨i, hif⟩, d.labels.data.get ⟨i, hil⟩,
      List.get?_eq_get hif, List.get?_eq_get hil, ?_⟩
    rw [RawDS.getitem, if_pos (by exact_mod_cast hif)]
    rw [pyGet_ofNat, pyGet_ofNat, List.get?_eq_get hif, List.get?_eq_get hil]
  · intro idx hidx
    rw [FedDS.getitem, if_neg]
    rw [hNe]
    omega
  · intro i hi
    have hif : i < e.features.length := by omega
    have hil : i < e.labels.length := by rw [FedDS.len] at hNe; omega
    refine ⟨e.features.get ⟨i, hif⟩, e.labels.get ⟨i, hil⟩,
      List.get?_eq_get hif, List.get?_eq_get hil, ?_⟩
    rw [FedDS.getitem, if_pos (by exact_mod_cast hif)]
    rw [pyGet_ofNat, pyGet_ofNat, List.get?_eq_get hif, List.get?_eq_get hil]

/-- C5 witness: the theorem instantiated on `wFiles` with the raw dataset
and the center-0 train view. -/
theorem claim_C5_witness :
    (rawW.len = rawW.labels.data.length ∧ fedW.len = fedW.labels.length) ∧
    (∀ idx : ℤ, (rawW.len : ℤ) ≤ idx → rawW.getitem idx = none) ∧
    (∀ i : Nat, i < rawW.len → ∃ X y, rawW.features.get? i = some X ∧
        rawW.labels.data.get? i = some y ∧
        rawW.getitem (i : ℤ) = some (X, labelRow rawW.labels y)) ∧
    (∀ idx : ℤ, (fedW.len : ℤ) ≤ idx → fedW.getitem idx = none) ∧
    (∀ i : Nat, i < fedW.len → ∃ X y, fedW.features.get? i = some X ∧
        fedW.labels.get? i = some y ∧ fedW.getitem (i : ℤ) = some (X, y)) :=
  claim_C5_len_and_getitem wRng wFiles 0 true false Dtype.float32
    Dtype.float32 rawW fedW rfl rfl

/-- C10: a negative index with `-len ≤ idx < 0` passes the bounds
assertion of `__getitem__` (which only rejects `idx ≥ len`) and returns
the pair at position `len + idx`, for both datasets. -/
theorem claim_C10_negative_indexing (rng : Nat → ℚ) (files : List RawFile)
    (center : ℤ) (train pooled : Bool) (Xd yd : Dtype) (d : RawDS)
    (e : FedDS) (hd : heartDiseaseRaw rng files Xd yd = some d)
    (he : fedHeartDisease rng files center train pooled Xd yd = some e) :
    (∀ idx : ℤ, -(d.len : ℤ) ≤ idx → idx < 0 → ∃ X y,
        d.features.get? (idx + d.len).toNat = some X ∧
        d.labels.data.get? (idx + d.len).toNat = some y ∧
        d.getitem idx = some (X, labelRow d.labels y)) ∧
    (∀ idx : ℤ, -(e.len : ℤ) ≤ idx → idx < 0 → ∃ X y,
        e.features.get? (idx + e.len).toNat = some X ∧
        e.labels.get? (idx + e.len).toNat = some y ∧
        e.getitem idx = some (X, y)) := by
  have hNd : d.features.length = d.len := by
    have h := raw_component_lengths hd
    rw [RawDS.len]
    omega
  have hNl : d.labels.data.length = d.len := rfl
  have hNe : e.features.length = e.len := by
    rw [FedDS.len]
    exact (fed_component_lengths he).1
  have hNel : e.labels.length = e.len := rfl
  constructor
  · intro idx hlo hhi
    have hif : (idx + d.len).toNat < d.features.length := by omega
    have hil : (idx + d.len).toNat < d.labels.data.length := by omega
    refine ⟨d.features.get ⟨_, hif⟩, d.labels.data.get ⟨_, hil⟩,
      List.get?_eq_get hif, List.get?_eq_get hil, ?_⟩
    rw [RawDS.getitem, if_pos (by omega)]
    rw [pyGet_neg d.features idx (by omega) hhi,
      pyGet_neg d.labels.data idx (by omega) hhi]
    rw [show ((idx + d.features.length).toNat) = (idx + d.len).toNat by omega,
      show ((idx + d.labels.data.length).toNat) = (idx + d.len).toNat by omega]
    rw [List.get?_eq_get hif, List.get?_eq_get hil]
  · intro idx hlo hhi
    have hif : (idx + e.len).toNat < e.features.length := by omega
    have hil : (idx + e.len).toNat < e.labels.length := by omega
    refine ⟨e.features.get ⟨_, hif⟩, e.labels.get ⟨_, hil⟩,
      List.get?_eq_get hif, List.get?_eq_get hil, ?_⟩
    rw [FedDS.getitem, if_pos (by omega)]
    rw [pyGet_neg e.features idx (by omega) hhi,
      pyGet_neg e.labels idx (by omega) hhi]
    rw [show ((idx + e.features.length).toNat) = (idx + e.len).toNat by omega,
      show ((idx + e.labels.length).toNat) = (idx + e.len).toNat by omega]
    rw [List.get?_eq_get hif, List.get?_eq_get hil]

/-- C10 witness: the theorem instantiated on `wFiles` (both datasets are
nonempty, so for example `idx = -1` is accepted). -/
theorem claim_C10_witness :
    (∀ idx : ℤ, -(rawW.len : ℤ) ≤ idx → idx < 0 → ∃ X y,
        rawW.features.get? (idx + rawW.len).toNat = some X ∧
        rawW.labels.data.get? (idx + rawW.len).toNat = some y ∧
        rawW.getitem idx = some (X, labelRow rawW.labels y)) ∧
    (∀ idx : ℤ, -(fedW.len : ℤ) ≤ idx → idx < 0 → ∃ X y,
        fedW.features.get? (idx + fedW.len).toNat = some X ∧
        fedW.labels.get? (idx + fedW.len).toNat = some y ∧
        fedW.getitem idx = some (X, y)) :=
  claim_C10_negative_indexing wRng wFiles 0 true false Dtype.float32
    Dtype.float32 rawW fedW rfl rfl

end FedHeart
